import Mathlib

/-!
# Verification of `main.py` (cpumemplt)

A shallow embedding of the process-selector state machine, the bounded
sampling-loop buffers, the metrics probe and the configuration prompts of
`src/main.py`, together with proofs of the spec's claims about them.

Modelling conventions:
* Python strings are modelled as `List Char`; `str.lower` as mapping
  `Char.toLower` over the characters (the ASCII case mapping — the filter
  string is built from ASCII keycodes 32..126).
* Python's substring test `a in b` is modelled as `List.IsInfix`.
* Python `int`s are modelled as `ℤ` (they are unbounded), floats as `ℚ`
  (every value produced here is parsed from a finite decimal numeral, and
  no inexact float arithmetic is relied on by any claim); the float NaN
  used as the "missing" sample marker is modelled as a distinguished
  constructor `MVal.missing`.
* `curses` keycodes are the integers `getch` returns: printable ASCII
  32..126, Enter 10/13, `KEY_UP = 259`, `KEY_DOWN = 258`,
  `KEY_BACKSPACE = 263` (plus 127 and 8).
* Fallible Python code (exceptions) is modelled with `Option`/`Except`.
-/

/-- A process entry `(pid, comm, args)` as produced by `list_processes`
(main.py lines 11-33): pid, short command name, full command line. -/
structure Proc where
  pid : ℕ
  comm : List Char
  args : List Char
deriving DecidableEq, Repr

/-- Python `str.lower` (ASCII case mapping) on a character list. -/
def pyLower (s : List Char) : List Char := s.map Char.toLower

/-- Decimal-rendering worker: peels off the least-significant digit,
recursing on a fuel bound so the definition is structurally recursive
(`fuel > n` always holds at the call sites). -/
def natDigitsGo (fuel n : ℕ) : List Char :=
  match fuel with
  | 0 => []
  | fuel + 1 =>
    if n < 10 then [Nat.digitChar n]
    else natDigitsGo fuel (n / 10) ++ [Nat.digitChar (n % 10)]

/-- Decimal rendering of a natural number, modelling Python `str(pid)`. -/
def natDigits (n : ℕ) : List Char := natDigitsGo (n + 1) n

/-- The membership test of the view comprehension (main.py line 77):
`ft in p[1].lower() or ft in p[2].lower() or ft in str(p[0])`,
where `ft` is the already-lowercased filter string. -/
def viewFilter (ft : List Char) (p : Proc) : Bool :=
  decide (ft <:+: pyLower p.comm) || decide (ft <:+: pyLower p.args) ||
    decide (ft <:+: natDigits p.pid)

/-- The filtered view (main.py lines 74-78): lowercase the filter, keep the
candidates passing `viewFilter`, preserving order. -/
def processView (filter_text : List Char) (procs : List Proc) : List Proc :=
  procs.filter (viewFilter (pyLower filter_text))

/-- The spec's matching predicate, stated in the claim's own words: the
short name, full command, or identifier-as-decimal-string contains the
filter as a case-insensitive substring. -/
def specMatch (F : List Char) (p : Proc) : Prop :=
  pyLower F <:+: pyLower p.comm ∨ pyLower F <:+: pyLower p.args ∨
    pyLower F <:+: pyLower (natDigits p.pid)

instance (F : List Char) (p : Proc) : Decidable (specMatch F p) := by
  unfold specMatch; infer_instance

/-- The mutable state of `process_selector` (main.py lines 69-71):
filter string, cursor index (a Python `int`, transiently out of range
until the re-clamp at the top of the loop), and selection list. -/
structure SelState where
  filter_text : List Char
  idx : ℤ
  selected : List Proc
deriving DecidableEq, Repr

/-- The initial selector state (main.py lines 69-71). -/
def initState : SelState := ⟨[], 0, []⟩

/-- The cursor re-clamp at the top of the selector loop (main.py lines
79-82): `idx = 0` on an empty view, else `max(0, min(idx, len(view)-1))`. -/
def clampIdx (viewLen : ℕ) (idx : ℤ) : ℤ :=
  if viewLen = 0 then 0 else max 0 (min idx ((viewLen : ℤ) - 1))

/-- curses `KEY_UP` (octal 0o403). -/
def KEY_UP : ℕ := 259
/-- curses `KEY_DOWN` (octal 0o402). -/
def KEY_DOWN : ℕ := 258
/-- curses `KEY_BACKSPACE` (octal 0o407). -/
def KEY_BACKSPACE : ℕ := 263

/-- The outcome of one selector-loop iteration: quit (`SystemExit`),
successful return of the selection, or continue with a new state. -/
inductive StepResult where
  | quit : StepResult
  | done : List Proc → StepResult
  | cont : SelState → StepResult
deriving DecidableEq, Repr

/-- One iteration of the `process_selector` loop (main.py lines 73-125):
recompute the view, re-clamp the cursor, then dispatch on the keycode in
the source's branch order (q/Q quit first, then up, down, backspace,
enter, printable, other ignored). -/
def process_selector_step (procs : List Proc) (s : SelState) (ch : ℕ) :
    StepResult :=
  let view := processView s.filter_text procs
  let idx := clampIdx view.length s.idx
  if ch = 113 ∨ ch = 81 then
    .quit
  else if ch = KEY_UP then
    .cont ⟨s.filter_text, idx - 1, s.selected⟩
  else if ch = KEY_DOWN then
    .cont ⟨s.filter_text, idx + 1, s.selected⟩
  else if ch = KEY_BACKSPACE ∨ ch = 127 ∨ ch = 8 then
    .cont ⟨s.filter_text.dropLast, 0, s.selected⟩
  else if ch = 10 ∨ ch = 13 then
    match view[idx.toNat]? with
    | none => .cont ⟨s.filter_text, idx, s.selected⟩
    | some chosen =>
      let selected' :=
        if chosen ∈ s.selected then s.selected else s.selected ++ [chosen]
      if selected'.length = 2 then .done selected'
      else .cont ⟨s.filter_text, idx, selected'⟩
  else if 32 ≤ ch ∧ ch ≤ 126 then
    .cont ⟨s.filter_text ++ [Char.ofNat ch], 0, s.selected⟩
  else
    .cont ⟨s.filter_text, idx, s.selected⟩

/-- Selector states reachable from the initial state by continuing steps. -/
inductive Reachable (procs : List Proc) : SelState → Prop where
  | init : Reachable procs initState
  | step {s s' : SelState} {ch : ℕ} : Reachable procs s →
      process_selector_step procs s ch = .cont s' → Reachable procs s'

/-! ### The selector viewport (main.py lines 90-94) -/

/-- The viewport computation of the selector (main.py lines 90-94):
`start_row = 4`, `max_rows = h - start_row - 1`,
`top = max(0, idx - max_rows // 2)`,
`bottom = min(len(view), top + max_rows)`,
`top = max(0, bottom - max_rows)`; Python's floor division `//` is
`Int.fdiv`. Returns the final `(top, bottom)`. -/
def viewportBounds (viewLen : ℕ) (idx scr_h : ℤ) : ℤ × ℤ :=
  let start_row : ℤ := 4
  let max_rows := scr_h - start_row - 1
  let top := max 0 (idx - Int.fdiv max_rows 2)
  let bottom := min (viewLen : ℤ) (top + max_rows)
  (max 0 (bottom - max_rows), bottom)

/-! ### The sampling loop and its bounded buffers (main.py lines 147-188) -/

/-- A chart value: a measured number, or the "missing" marker — the
source appends `math.nan` when a probe fails (main.py lines 181-182),
modelled as a distinguished constructor so it is distinct from every
measured value (in particular from a measured zero). -/
inductive MVal where
  | missing : MVal
  | measured : ℚ → MVal
deriving DecidableEq, Repr

/-- One tick's inputs: the elapsed-time stamp `now` and the two probe
results `m1 = get_metrics(pid1)`, `m2 = get_metrics(pid2)`
(main.py lines 176-179). -/
structure TickIn where
  now : ℚ
  m1 : Option (ℚ × ℚ)
  m2 : Option (ℚ × ℚ)
deriving DecidableEq, Repr

/-- The CPU component of `c, r = m if m else (math.nan, math.nan)`
(main.py lines 181-182). -/
def cpuOf : Option (ℚ × ℚ) → MVal
  | none => .missing
  | some p => .measured p.1

/-- The memory component of `c, r = m if m else (math.nan, math.nan)`
(main.py lines 181-182). -/
def memOf : Option (ℚ × ℚ) → MVal
  | none => .missing
  | some p => .measured p.2

/-- Python `deque(maxlen=N).append(x)` (main.py lines 147-151, 184-188): append
on the right; anything beyond the capacity `N` is discarded from the
left. -/
def dqAppend (N : ℕ) (buf : List α) (x : α) : List α :=
  (buf ++ [x]).drop (buf.length + 1 - N)

/-- The sequence of deque states after appending a whole list of values
in order, starting from the empty deque. -/
def sampleTicks (N : ℕ) (vs : List α) : List α := vs.foldl (dqAppend N) []

/-- The five `deque(maxlen=window)` buffers of the sampling loop
(main.py lines 147-151). -/
structure Buffers where
  t : List ℚ
  cpu1 : List MVal
  cpu2 : List MVal
  mem1 : List MVal
  mem2 : List MVal
deriving DecidableEq, Repr

/-- The freshly created buffers (main.py lines 147-151). -/
def emptyBuffers : Buffers := ⟨[], [], [], [], []⟩

/-- One tick of the sampling loop body (main.py lines 176-188): convert
each probe result (missing on failure), then append one sample to every
buffer unconditionally. The body is total: a probe failure is data
(`none`), never an exception. -/
def tick (N : ℕ) (B : Buffers) (i : TickIn) : Buffers :=
  { t := dqAppend N B.t i.now
    cpu1 := dqAppend N B.cpu1 (cpuOf i.m1)
    cpu2 := dqAppend N B.cpu2 (cpuOf i.m2)
    mem1 := dqAppend N B.mem1 (memOf i.m1)
    mem2 := dqAppend N B.mem2 (memOf i.m2) }

/-- The sampling loop run over a finite list of tick inputs, from the
fresh buffers. -/
def runTicks (N : ℕ) (ins : List TickIn) : Buffers :=
  ins.foldl (tick N) emptyBuffers

/-! ### The metrics probe and the configuration prompts (main.py lines 36-53, 131-143) -/

/-- Python `str.strip()`: remove leading and trailing whitespace. -/
def pyStrip (s : List Char) : List Char :=
  ((s.dropWhile Char.isWhitespace).reverse.dropWhile
    Char.isWhitespace).reverse

/-- Worker for Python `str.split()` with no argument: split on runs of
whitespace, discarding empty pieces; `acc` holds the current word
reversed. -/
def pySplitGo : List Char → List Char → List (List Char)
  | [], acc => if acc = [] then [] else [acc.reverse]
  | c :: cs, acc =>
    if c.isWhitespace then
      if acc = [] then pySplitGo cs []
      else acc.reverse :: pySplitGo cs []
    else pySplitGo cs (c :: acc)

/-- Python `str.split()` with no argument. -/
def pySplit (s : List Char) : List (List Char) := pySplitGo s []

/-- The natural-number value of a digit string (most significant first). -/
def digitsVal (l : List Char) : ℕ :=
  l.foldl (fun a c => 10 * a + (c.toNat - 48)) 0

/-- Modelled builtin: Python `float()` on the decimal-numeral subset
`[ws] [sign] (digits [. digits] | . digits) [ws]` — the grammar covering
every value this program feeds it (`ps` %cpu output and the interval
prompt); other strings raise ValueError, modelled as `none`. -/
def pyFloat (s : List Char) : Option ℚ :=
  let s := pyStrip s
  let sign : ℚ := if s.head? = some '-' then -1 else 1
  let s := if s.head? = some '-' ∨ s.head? = some '+' then s.tail else s
  let ip := s.takeWhile Char.isDigit
  let rest := s.dropWhile Char.isDigit
  match rest with
  | [] => if ip = [] then none else some (sign * digitsVal ip)
  | '.' :: fp =>
    if fp.all Char.isDigit ∧ (ip ≠ [] ∨ fp ≠ []) then
      some (sign * ((digitsVal ip : ℚ) +
        (digitsVal fp : ℚ) / 10 ^ fp.length))
    else none
  | _ => none

/-- Modelled builtin: Python `int()` on the decimal-numeral subset
`[ws] [sign] digits [ws]` — the grammar covering every value this
program feeds it (`ps` rss output and the window prompt); other strings
raise ValueError, modelled as `none`. -/
def pyInt (s : List Char) : Option ℤ :=
  let s := pyStrip s
  let sign : ℤ := if s.head? = some '-' then -1 else 1
  let s := if s.head? = some '-' ∨ s.head? = some '+' then s.tail else s
  if s ≠ [] ∧ s.all Char.isDigit then some (sign * digitsVal s) else none

/-- The probe `get_metrics` (main.py lines 36-53). The input models the outcome of
the `ps -p pid -o %cpu=,rss=` subprocess call: `none` when the command
raises (vanished pid, etc.), `some out` for its captured text. The body
mirrors the source inside its catch-all `try`: strip, reject empty
output, split into exactly two fields, parse `float`/`int`, and return
`(cpu, rss_kb / 1024)`; every failure path is caught and becomes `none`
— the function is total and never propagates an exception. -/
def get_metrics (raw : Option (List Char)) : Option (ℚ × ℚ) :=
  match raw with
  | none => none
  | some out =>
    let out := pyStrip out
    if out = [] then none
    else
      match pySplit out with
      | [cpu_s, rss_s] =>
        match pyFloat cpu_s, pyInt rss_s with
        | some cpu, some rss_kb => some (cpu, (rss_kb : ℚ) / 1024)
        | _, _ => none
      | _ => none

deriving instance DecidableEq for Except

/-- The interval/window prompt handling of `label_wrapper` (main.py
lines 137-143): strip the operator's input, substitute `"1.0"` / `"120"`
only when the stripped input is empty, then call `float` / `int` — whose
ValueError on unparseable input propagates (modelled as `.error ()`). -/
def label_wrapper_config (interval_in window_in : List Char) :
    Except Unit (ℚ × ℤ) :=
  let interval_s := if pyStrip interval_in = [] then ['1', '.', '0']
    else pyStrip interval_in
  let window_s := if pyStrip window_in = [] then ['1', '2', '0']
    else pyStrip window_in
  match pyFloat interval_s, pyInt window_s with
  | some i, some w => .ok (i, w)
  | _, _ => .error ()

/-! ## C1: the filtered view -/

lemma toLower_mem_natDigitsGo {fuel n : ℕ} {c : Char}
    (hc : c ∈ natDigitsGo fuel n) : Char.toLower c = c := by
  have hdig : ∀ m, m < 10 → Char.toLower (Nat.digitChar m) = Nat.digitChar m := by
    decide
  induction fuel generalizing n with
  | zero => simp [natDigitsGo] at hc
  | succ fuel ih =>
    rw [natDigitsGo] at hc
    by_cases h : n < 10
    · rw [if_pos h] at hc
      simp only [List.mem_singleton] at hc
      exact hc ▸ hdig n h
    · rw [if_neg h] at hc
      rcases List.mem_append.1 hc with h1 | h1
      · exact ih h1
      · simp only [List.mem_singleton] at h1
        exact h1 ▸ hdig _ (Nat.mod_lt _ (by omega))

lemma pyLower_natDigits (n : ℕ) : pyLower (natDigits n) = natDigits n := by
  unfold pyLower natDigits
  calc (natDigitsGo (n + 1) n).map Char.toLower
      = (natDigitsGo (n + 1) n).map id :=
        List.map_congr_left fun c hc => toLower_mem_natDigitsGo hc
    _ = natDigitsGo (n + 1) n := List.map_id _

/-- C1. For every filter string F and candidate list, the filtered view is
exactly the candidates matching F case-insensitively on short name, full
command, or decimal identifier, in their original relative order: the view
equals `List.filter` of the spec's predicate, and is a sublist of the
candidate list. -/
theorem C1_filtered_view (F : List Char) (procs : List Proc) :
    processView F procs = procs.filter (fun p => decide (specMatch F p)) ∧
    (processView F procs).Sublist procs := by
  refine ⟨?_, List.filter_sublist _⟩
  unfold processView
  apply List.filter_congr
  intro p _
  simp only [viewFilter, specMatch, Bool.decide_or, pyLower_natDigits,
    Bool.or_assoc]

/-! ## C2-C4: the selector state machine -/

/-- Inversion on a continuing step: the selection is unchanged, or one
not-yet-selected entry was appended without reaching length 2. -/
lemma step_cont_selected (procs : List Proc) (s : SelState) (ch : ℕ)
    (s' : SelState) (h : process_selector_step procs s ch = .cont s') :
    s'.selected = s.selected ∨
      ∃ p, p ∉ s.selected ∧ s'.selected = s.selected ++ [p] ∧
        (s.selected ++ [p]).length ≠ 2 := by
  simp only [process_selector_step] at h
  repeat' split at h
  all_goals first
    | (injection h with h; subst h; left; rfl)
    | (injection h with h; subst h; right;
       refine ⟨_, ?_, rfl, ?_⟩ <;> assumption)
    | simp at h

/-- Every reachable selector state has at most one selected entry, with no
duplicates (the loop returns the instant the selection reaches two). -/
lemma reachable_selected_le_one {procs : List Proc} {s : SelState}
    (h : Reachable procs s) : s.selected.length ≤ 1 ∧ s.selected.Nodup := by
  induction h with
  | init => simp [initState]
  | step hr hstep ih =>
    rcases step_cont_selected _ _ _ _ hstep with heq | ⟨p, hp, heq, hlen⟩
    · rw [heq]; exact ih
    · rw [heq]
      simp only [List.length_append, List.length_singleton] at hlen ⊢
      refine ⟨by omega, ?_⟩
      simp only [List.nodup_append, List.nodup_singleton,
        List.disjoint_singleton]
      exact ⟨ih.2, trivial, hp⟩

/-- C2. After any selector event that continues, the presented cursor
(the re-clamp applied at the top of the next iteration, main.py lines
79-82) lies in `[0, view.length - 1]` on a non-empty view and is 0 on an
empty view; a `KEY_UP` event moves the presented cursor to
`max 0 (cursor - 1)` and a `KEY_DOWN` event to
`min (view.length - 1) (cursor + 1)` — one step with saturation, no
wraparound. -/
theorem C2_cursor_in_range (procs : List Proc) (s : SelState) (ch : ℕ)
    (s' : SelState) (h : process_selector_step procs s ch = .cont s') :
    ((processView s'.filter_text procs).length = 0 →
      clampIdx (processView s'.filter_text procs).length s'.idx = 0) ∧
    (0 < (processView s'.filter_text procs).length →
      0 ≤ clampIdx (processView s'.filter_text procs).length s'.idx ∧
      clampIdx (processView s'.filter_text procs).length s'.idx ≤
        ((processView s'.filter_text procs).length : ℤ) - 1) ∧
    (ch = KEY_UP →
      clampIdx (processView s'.filter_text procs).length s'.idx =
        max 0 (clampIdx (processView s.filter_text procs).length s.idx - 1)) ∧
    (ch = KEY_DOWN → 0 < (processView s.filter_text procs).length →
      clampIdx (processView s'.filter_text procs).length s'.idx =
        min (((processView s.filter_text procs).length : ℤ) - 1)
          (clampIdx (processView s.filter_text procs).length s.idx + 1)) := by
  refine ⟨?_, ?_, ?_, ?_⟩
  · intro h0; simp [clampIdx, h0]
  · intro h0; rw [clampIdx, if_neg (by omega)]; omega
  · rintro rfl
    have hstep : process_selector_step procs s KEY_UP =
        .cont ⟨s.filter_text,
          clampIdx (processView s.filter_text procs).length s.idx - 1,
          s.selected⟩ := by
      simp only [process_selector_step]
      norm_num [KEY_UP, KEY_DOWN]
    rw [hstep] at h
    injection h with h
    subst h
    simp only []
    rcases Nat.eq_zero_or_pos (processView s.filter_text procs).length
      with h0 | h0
    · simp [clampIdx, h0]
    · rw [clampIdx, if_neg (by omega), clampIdx, if_neg (by omega)]
      omega
  · rintro rfl h0
    have hstep : process_selector_step procs s KEY_DOWN =
        .cont ⟨s.filter_text,
          clampIdx (processView s.filter_text procs).length s.idx + 1,
          s.selected⟩ := by
      simp only [process_selector_step]
      norm_num [KEY_UP, KEY_DOWN]
    rw [hstep] at h
    injection h with h
    subst h
    simp only []
    rw [clampIdx, if_neg (by omega), clampIdx, if_neg (by omega)]
    omega

/-- Witness for C2 at a concrete input: two candidates, cursor over-shot
to 5, a `KEY_DOWN` event; the presented cursor saturates at index 1. -/
theorem C2_cursor_in_range_witness :
    clampIdx (processView [] [⟨10, ['a'], ['a']⟩, ⟨20, ['b'], ['b']⟩]).length
        (2 : ℤ) =
      min (((processView [] [⟨10, ['a'], ['a']⟩, ⟨20, ['b'], ['b']⟩]).length : ℤ) - 1)
        (clampIdx (processView [] [⟨10, ['a'], ['a']⟩, ⟨20, ['b'], ['b']⟩]).length 5 + 1) :=
  (C2_cursor_in_range [⟨10, ['a'], ['a']⟩, ⟨20, ['b'], ['b']⟩] ⟨[], 5, []⟩
    KEY_DOWN ⟨[], 2, []⟩ (by decide)).2.2.2 rfl (by decide)

/-- C3. From any reachable selector state, an Enter event (keycode 10 or
13, main.py lines 116-122) on an empty view is a no-op; on a non-empty
view it takes the entry at the (clamped) cursor: if already selected
nothing changes (no duplicate, no progress toward completion), if new and
the selection was empty it is appended and the loop continues, if new and
the selection had one entry the machine terminates returning the two
distinct entries in the order chosen; and every terminating step returns
exactly the previous selection plus one new entry — two entries, no
duplicates, insertion order. -/
theorem C3_enter_selection (procs : List Proc) (s : SelState)
    (hs : Reachable procs s) (ch : ℕ) (hch : ch = 10 ∨ ch = 13) :
    (processView s.filter_text procs = [] →
      process_selector_step procs s ch =
        .cont ⟨s.filter_text, 0, s.selected⟩) ∧
    (∀ chosen,
      (processView s.filter_text procs)[(clampIdx
        (processView s.filter_text procs).length s.idx).toNat]? =
          some chosen →
      (chosen ∈ s.selected → process_selector_step procs s ch =
        .cont ⟨s.filter_text,
          clampIdx (processView s.filter_text procs).length s.idx,
          s.selected⟩) ∧
      (chosen ∉ s.selected → s.selected = [] →
        process_selector_step procs s ch =
          .cont ⟨s.filter_text,
            clampIdx (processView s.filter_text procs).length s.idx,
            [chosen]⟩) ∧
      (chosen ∉ s.selected → s.selected.length = 1 →
        process_selector_step procs s ch =
          .done (s.selected ++ [chosen]))) ∧
    (∀ sel, process_selector_step procs s ch = .done sel →
      ∃ chosen, chosen ∉ s.selected ∧ sel = s.selected ++ [chosen] ∧
        sel.length = 2 ∧ sel.Nodup) := by
  obtain ⟨hlen1, hnodup⟩ := reachable_selected_le_one hs
  rcases hch with rfl | rfl <;>
  · refine ⟨?_, ?_, ?_⟩
    · intro hv
      simp only [process_selector_step]
      norm_num [KEY_UP, KEY_DOWN, KEY_BACKSPACE]
      rw [hv]
      split
      · simp [clampIdx]
      · rename_i chosen heq
        simp at heq
    · intro chosen hchosen
      refine ⟨?_, ?_, ?_⟩
      · intro hmem
        simp only [process_selector_step]
        norm_num [KEY_UP, KEY_DOWN, KEY_BACKSPACE]
        split
        · rename_i heq
          simp [heq] at hchosen
        · rename_i chosen' heq
          rw [heq] at hchosen
          injection hchosen with hchosen
          subst hchosen
          rw [if_pos hmem, if_neg (by omega)]
      · intro hmem hemp
        simp only [process_selector_step]
        norm_num [KEY_UP, KEY_DOWN, KEY_BACKSPACE]
        split
        · rename_i heq
          simp [heq] at hchosen
        · rename_i chosen' heq
          rw [heq] at hchosen
          injection hchosen with hchosen
          subst hchosen
          rw [if_neg hmem, if_neg (by simp [hemp])]
          rw [hemp]
          rfl
      · intro hmem h1
        simp only [process_selector_step]
        norm_num [KEY_UP, KEY_DOWN, KEY_BACKSPACE]
        split
        · rename_i heq
          simp [heq] at hchosen
        · rename_i chosen' heq
          rw [heq] at hchosen
          injection hchosen with hchosen
          subst hchosen
          rw [if_neg hmem, if_pos (by simp [h1])]
    · intro sel hdone
      simp only [process_selector_step] at hdone
      norm_num [KEY_UP, KEY_DOWN, KEY_BACKSPACE] at hdone
      repeat' split at hdone
      all_goals first
        | (exfalso; omega)
        | (injection hdone with hdone; subst hdone;
           refine ⟨_, ?_, rfl, ?_, ?_⟩ <;>
            first
            | assumption
            | (simp only [List.nodup_append, List.nodup_singleton,
                List.disjoint_singleton]
               exact ⟨hnodup, trivial, by assumption⟩))
        | cases hdone

/-- Witness for C3 at a concrete input: two candidates, empty filter,
initial state, Enter (keycode 10) selects the first candidate. -/
theorem C3_enter_selection_witness :
    process_selector_step [⟨10, ['a'], ['a']⟩, ⟨20, ['b'], ['b']⟩]
        initState 10 =
      .cont ⟨[], 0, [⟨10, ['a'], ['a']⟩]⟩ := by
  have h := C3_enter_selection [⟨10, ['a'], ['a']⟩, ⟨20, ['b'], ['b']⟩]
    initState Reachable.init 10 (Or.inl rfl)
  exact ((h.2.1 ⟨10, ['a'], ['a']⟩ (by decide)).2.1 (by decide) rfl)

/-- C4 counterexample. The keycodes 113 (`q`) and 81 (`Q`) are printable
characters (in 32..126), yet the selector quits on them (main.py line
107-108) instead of appending them to the filter string: the claim "every
printable-character key event appends to the filter" fails at `q`. -/
theorem C4_counterexample :
    (32 ≤ 113 ∧ 113 ≤ 126 ∧ 32 ≤ 81 ∧ 81 ≤ 126) ∧
    process_selector_step [] initState 113 = .quit ∧
    process_selector_step [] initState 81 = .quit := by decide

/-- C4 (amended). Every printable-character keycode other than 113 (`q`)
and 81 (`Q`) is appended to the filter string with the cursor reset to 0
(main.py lines 123-125); a backspace keycode (263, 127 or 8) removes the
last filter character — a no-op on an empty filter — and resets the
cursor to 0 (main.py lines 113-115); keycodes 113 and 81 quit. -/
theorem C4_printable_backspace (procs : List Proc) (s : SelState) (ch : ℕ) :
    (32 ≤ ch → ch ≤ 126 → ch ≠ 113 → ch ≠ 81 →
      process_selector_step procs s ch =
        .cont ⟨s.filter_text ++ [Char.ofNat ch], 0, s.selected⟩) ∧
    ((ch = KEY_BACKSPACE ∨ ch = 127 ∨ ch = 8) →
      process_selector_step procs s ch =
        .cont ⟨s.filter_text.dropLast, 0, s.selected⟩) ∧
    ((ch = 113 ∨ ch = 81) → process_selector_step procs s ch = .quit) := by
  refine ⟨?_, ?_, ?_⟩
  · intro h32 h126 hq hQ
    simp only [process_selector_step]
    rw [if_neg (by omega), if_neg (by unfold KEY_UP; omega),
      if_neg (by unfold KEY_DOWN; omega),
      if_neg (by unfold KEY_BACKSPACE; omega),
      if_neg (by omega), if_pos ⟨h32, h126⟩]
  · rintro (rfl | rfl | rfl) <;>
    · simp only [process_selector_step]
      norm_num [KEY_UP, KEY_DOWN, KEY_BACKSPACE]
  · rintro (rfl | rfl) <;>
    · simp only [process_selector_step]
      norm_num

/-- Witness for C4 (amended) at a concrete input: keycode 97 (`a`) is
appended to the filter `"x"` and the cursor resets to 0. -/
theorem C4_printable_backspace_witness :
    process_selector_step [] ⟨['x'], 3, []⟩ 97 =
      .cont ⟨['x', Char.ofNat 97], 0, []⟩ :=
  (C4_printable_backspace [] ⟨['x'], 3, []⟩ 97).1 (by decide) (by decide)
    (by decide) (by decide)

/-! ## C9: the selector viewport -/

/-- C9. Whenever the viewport holds at least one row
(`max_rows = scr_h - 5 ≥ 1`) and the cursor is a clamped index into a
non-empty view, the final viewport top is clamped into
`[0, max 0 (viewLen - max_rows)]`, and the cursor row lies within the
rendered window: `top ≤ idx < bottom ≤ top + max_rows`; moreover when
centering fits entirely (`0 ≤ idx - max_rows/2` and
`idx - max_rows/2 + max_rows ≤ viewLen`) the top is exactly the centered
position `idx - max_rows/2`. -/
theorem C9_viewport (viewLen : ℕ) (idx scr_h : ℤ)
    (hm : 1 ≤ scr_h - 5) (h0 : 0 ≤ idx) (hlt : idx < (viewLen : ℤ)) :
    0 ≤ (viewportBounds viewLen idx scr_h).1 ∧
    (viewportBounds viewLen idx scr_h).1 ≤
      max 0 ((viewLen : ℤ) - (scr_h - 5)) ∧
    (viewportBounds viewLen idx scr_h).1 ≤ idx ∧
    idx < (viewportBounds viewLen idx scr_h).2 ∧
    (viewportBounds viewLen idx scr_h).2 ≤
      (viewportBounds viewLen idx scr_h).1 + (scr_h - 5) ∧
    (0 ≤ idx - (scr_h - 5) / 2 →
      idx - (scr_h - 5) / 2 + (scr_h - 5) ≤ (viewLen : ℤ) →
      (viewportBounds viewLen idx scr_h).1 = idx - (scr_h - 5) / 2) := by
  have hfd : (scr_h - 4 - 1).fdiv 2 = (scr_h - 5) / 2 := by
    rw [Int.fdiv_eq_ediv _ (by omega)]
    omega
  simp only [viewportBounds, hfd]
  have hdiv : 0 ≤ (scr_h - 5) / 2 ∧ 2 * ((scr_h - 5) / 2) ≤ scr_h - 5 ∧
      scr_h - 5 < 2 * ((scr_h - 5) / 2) + 2 := by omega
  refine ⟨by omega, by omega, by omega, by omega, by omega, ?_⟩
  intro hc1 hc2
  omega

/-- Witness for C9 at a concrete input: a 20-row view, cursor at 9, a
12-row screen (7 viewport rows); the top centers at 9 - 3 = 6. -/
theorem C9_viewport_witness :
    0 ≤ (viewportBounds 20 9 12).1 ∧
    (viewportBounds 20 9 12).1 ≤ max 0 ((20 : ℤ) - (12 - 5)) ∧
    (viewportBounds 20 9 12).1 ≤ 9 ∧
    (9 : ℤ) < (viewportBounds 20 9 12).2 ∧
    (viewportBounds 20 9 12).2 ≤ (viewportBounds 20 9 12).1 + (12 - 5) ∧
    (viewportBounds 20 9 12).1 = 9 - (12 - 5) / 2 := by
  have h := C9_viewport 20 9 12 (by norm_num) (by norm_num) (by norm_num)
  exact ⟨h.1, h.2.1, h.2.2.1, h.2.2.2.1, h.2.2.2.2.1,
    h.2.2.2.2.2 (by norm_num) (by norm_num)⟩

/-! ## C5-C7: the sampling loop -/


lemma dqAppend_length (N : ℕ) (buf : List α) (x : α) :
    (dqAppend N buf x).length = min (buf.length + 1) N := by
  simp only [dqAppend, List.length_drop, List.length_append,
    List.length_singleton]
  omega

lemma sampleTicks_concat (N : ℕ) (vs : List α) (x : α) :
    sampleTicks N (vs ++ [x]) = dqAppend N (sampleTicks N vs) x := by
  simp [sampleTicks, List.foldl_append]

/-- The deque after appending `vs` in order holds exactly the last
`min vs.length N` values, in order. -/
lemma sampleTicks_eq (N : ℕ) (vs : List α) :
    sampleTicks N vs = vs.drop (vs.length - N) := by
  induction vs using List.reverseRecOn with
  | nil => simp [sampleTicks]
  | append_singleton vs x ih =>
    rw [sampleTicks_concat, ih, dqAppend]
    simp only [List.drop_append_eq_append_drop, List.drop_drop,
      List.length_drop, List.length_append, List.length_singleton]
    congr 1 <;> congr 1 <;> omega

lemma sampleTicks_length (N : ℕ) (vs : List α) :
    (sampleTicks N vs).length = min vs.length N := by
  rw [sampleTicks_eq, List.length_drop]
  omega

/-- Each buffer of a run is the deque-fold of the corresponding per-tick
value stream. -/
lemma foldl_tick_proj (N : ℕ) (ins : List TickIn) (B : Buffers) :
    (ins.foldl (tick N) B).t =
      ins.foldl (fun b i => dqAppend N b i.now) B.t ∧
    (ins.foldl (tick N) B).cpu1 =
      ins.foldl (fun b i => dqAppend N b (cpuOf i.m1)) B.cpu1 ∧
    (ins.foldl (tick N) B).cpu2 =
      ins.foldl (fun b i => dqAppend N b (cpuOf i.m2)) B.cpu2 ∧
    (ins.foldl (tick N) B).mem1 =
      ins.foldl (fun b i => dqAppend N b (memOf i.m1)) B.mem1 ∧
    (ins.foldl (tick N) B).mem2 =
      ins.foldl (fun b i => dqAppend N b (memOf i.m2)) B.mem2 := by
  induction ins generalizing B with
  | nil => exact ⟨rfl, rfl, rfl, rfl, rfl⟩
  | cons i ins ih => exact ih (tick N B i)

lemma runTicks_mem1 (N : ℕ) (ins : List TickIn) :
    (runTicks N ins).mem1 = sampleTicks N (ins.map fun i => memOf i.m1) := by
  rw [runTicks, (foldl_tick_proj N ins emptyBuffers).2.2.2.1, sampleTicks,
    List.foldl_map]
  rfl

/-- C5. A series buffer (here the first process's memory buffer) after
`k` ticks has length `min k N`, never exceeding the window `N`, and holds
exactly the `N` most recent samples in chronological order; an append to
a full non-trivial buffer evicts exactly the single oldest sample
(strict FIFO); and in the spec's scenario — window 3, memory values
100, 110, 120, 130 — after tick 4 the buffer holds 110, 120, 130 with
the timestamps correspondingly shifted. -/
theorem C5_bounded_fifo :
    (∀ (N : ℕ) (ins : List TickIn),
      (runTicks N ins).mem1.length = min ins.length N ∧
      (runTicks N ins).mem1 =
        (ins.map fun i => memOf i.m1).drop (ins.length - N)) ∧
    (∀ (N : ℕ) (buf : List MVal) (x : MVal), 1 ≤ N → buf.length = N →
      dqAppend N buf x = buf.drop 1 ++ [x]) ∧
    (runTicks 3 [⟨0, some (0, 100), none⟩, ⟨1, some (0, 110), none⟩,
        ⟨2, some (0, 120), none⟩, ⟨3, some (0, 130), none⟩]).mem1 =
      [MVal.measured 110, MVal.measured 120, MVal.measured 130] ∧
    (runTicks 3 [⟨0, some (0, 100), none⟩, ⟨1, some (0, 110), none⟩,
        ⟨2, some (0, 120), none⟩, ⟨3, some (0, 130), none⟩]).t =
      [1, 2, 3] := by
  refine ⟨?_, ?_, by decide, by decide⟩
  · intro N ins
    rw [runTicks_mem1, sampleTicks_length, sampleTicks_eq]
    simp
  · intro N buf x h1 hlen
    rw [dqAppend, List.drop_append_eq_append_drop]
    have h2 : buf.length + 1 - N = 1 := by omega
    have h3 : 1 - buf.length = 0 := by omega
    rw [h2, h3, List.drop_zero]

/-- Witness for C5 at a concrete input: appending to a full 3-element
deque evicts exactly the oldest element. -/
theorem C5_bounded_fifo_witness :
    dqAppend 3 [MVal.measured 1, MVal.measured 2, MVal.measured 3]
        MVal.missing =
      [MVal.measured 1, MVal.measured 2, MVal.measured 3].drop 1 ++
        [MVal.missing] :=
  C5_bounded_fifo.2.1 3 [MVal.measured 1, MVal.measured 2, MVal.measured 3]
    MVal.missing (by norm_num) (by decide)

/-- C6. Lockstep: after any run of the sampling loop the five buffers all
have the same length `min (number of ticks) N` — in particular the two
processes' CPU buffers and the two memory buffers are index-aligned by
tick, whatever the probe outcomes (including one probe failing on every
tick); and a single tick appends exactly one sample to every buffer. -/
theorem C6_lockstep :
    (∀ (N : ℕ) (ins : List TickIn),
      (runTicks N ins).cpu1.length = (runTicks N ins).cpu2.length ∧
      (runTicks N ins).mem1.length = (runTicks N ins).mem2.length ∧
      (runTicks N ins).t.length = (runTicks N ins).cpu1.length ∧
      (runTicks N ins).t.length = (runTicks N ins).mem1.length ∧
      (runTicks N ins).t.length = min ins.length N) ∧
    (∀ (N : ℕ) (B : Buffers) (i : TickIn),
      (tick N B i).t.length = min (B.t.length + 1) N ∧
      (tick N B i).cpu1.length = min (B.cpu1.length + 1) N ∧
      (tick N B i).cpu2.length = min (B.cpu2.length + 1) N ∧
      (tick N B i).mem1.length = min (B.mem1.length + 1) N ∧
      (tick N B i).mem2.length = min (B.mem2.length + 1) N) := by
  constructor
  · intro N ins
    obtain ⟨ht, hc1, hc2, hm1, hm2⟩ := foldl_tick_proj N ins emptyBuffers
    simp only [emptyBuffers] at ht hc1 hc2 hm1 hm2
    have hlen : ∀ (f : TickIn → MVal),
        (ins.foldl (fun b i => dqAppend N b (f i)) []).length =
          min ins.length N := by
      intro f
      have := sampleTicks_length N (ins.map f)
      rwa [sampleTicks, List.foldl_map, List.length_map] at this
    have hlent : (ins.foldl (fun b i => dqAppend N b i.now) []).length =
        min ins.length N := by
      have := sampleTicks_length N (ins.map fun i => i.now)
      rwa [sampleTicks, List.foldl_map, List.length_map] at this
    simp only [runTicks, emptyBuffers]
    rw [ht, hc1, hc2, hm1, hm2]
    rw [hlen fun i => cpuOf i.m1, hlen fun i => cpuOf i.m2,
      hlen fun i => memOf i.m1, hlen fun i => memOf i.m2, hlent]
    exact ⟨rfl, rfl, rfl, rfl, rfl⟩
  · intro N B i
    exact ⟨dqAppend_length N B.t i.now, dqAppend_length N B.cpu1 _,
      dqAppend_length N B.cpu2 _, dqAppend_length N B.mem1 _,
      dqAppend_length N B.mem2 _⟩

lemma getLast?_dqAppend (N : ℕ) (hN : 1 ≤ N) (buf : List α) (x : α) :
    (dqAppend N buf x).getLast? = some x := by
  rw [dqAppend, List.drop_append_eq_append_drop,
    Nat.sub_eq_zero_of_le (by omega : buf.length + 1 - N ≤ buf.length),
    List.drop_zero, List.getLast?_concat]

/-- C7. When the window is positive and, on some tick, the first
process's probe fails while the second's succeeds with `(c, r)`, that
tick appends the missing marker for the first process's CPU and memory
buffers and measured samples `c`, `r` for the second, together with the
timestamp; every buffer still grows by exactly one sample (the tick is
never dropped); and the missing marker is distinct from a measured
zero. -/
theorem C7_probe_failure (N : ℕ) (hN : 1 ≤ N) (B : Buffers) (i : TickIn)
    (c r : ℚ) (h1 : i.m1 = none) (h2 : i.m2 = some (c, r)) :
    (tick N B i).cpu1.getLast? = some MVal.missing ∧
    (tick N B i).mem1.getLast? = some MVal.missing ∧
    (tick N B i).cpu2.getLast? = some (MVal.measured c) ∧
    (tick N B i).mem2.getLast? = some (MVal.measured r) ∧
    (tick N B i).t.getLast? = some i.now ∧
    (tick N B i).t.length = min (B.t.length + 1) N ∧
    (tick N B i).cpu1.length = min (B.cpu1.length + 1) N ∧
    MVal.missing ≠ MVal.measured 0 := by
  refine ⟨?_, ?_, ?_, ?_, ?_, dqAppend_length N B.t i.now,
    dqAppend_length N B.cpu1 _, by simp⟩ <;>
    simp [tick, cpuOf, memOf, h1, h2, getLast?_dqAppend N hN]

/-- Witness for C7 at a concrete input: window 2, empty buffers, first
probe fails, second returns (5, 7). -/
theorem C7_probe_failure_witness :
    (tick 2 emptyBuffers ⟨0, none, some (5, 7)⟩).cpu1.getLast? =
        some MVal.missing ∧
    (tick 2 emptyBuffers ⟨0, none, some (5, 7)⟩).mem1.getLast? =
        some MVal.missing ∧
    (tick 2 emptyBuffers ⟨0, none, some (5, 7)⟩).cpu2.getLast? =
        some (MVal.measured 5) ∧
    (tick 2 emptyBuffers ⟨0, none, some (5, 7)⟩).mem2.getLast? =
        some (MVal.measured 7) ∧
    (tick 2 emptyBuffers ⟨0, none, some (5, 7)⟩).t.getLast? =
        some (0 : ℚ) ∧
    (tick 2 emptyBuffers ⟨0, none, some (5, 7)⟩).t.length = min (0 + 1) 2 ∧
    (tick 2 emptyBuffers ⟨0, none, some (5, 7)⟩).cpu1.length =
        min (0 + 1) 2 ∧
    MVal.missing ≠ MVal.measured 0 :=
  C7_probe_failure 2 (by norm_num) emptyBuffers ⟨0, none, some (5, 7)⟩
    5 7 rfl rfl

/-! ## C8, C10: the metrics probe and the configuration prompts -/

/-- C8 counterexample. On the non-numeric interval input `"abc"` (window
left empty) the configuration step fails — `float("abc")` raises
ValueError, which nothing catches — rather than substituting the default
1.0: parse failure is fatal, refuting "never fatal". -/
theorem C8_counterexample :
    label_wrapper_config ['a', 'b', 'c'] [] = .error () := by
  simp [label_wrapper_config, pyFloat, pyInt, pyStrip, digitsVal]

/-- C8 (amended). Empty (or all-whitespace) prompt input yields the
documented defaults — interval 1.0 seconds and window 120 samples — but
non-numeric input is not recovered: the parse failure propagates and
aborts configuration. -/
theorem C8_config_defaults :
    label_wrapper_config [] [] = .ok (1, 120) ∧
    label_wrapper_config [' ', ' ', ' '] [' ', ' '] = .ok (1, 120) ∧
    (∀ iv wd,
      pyFloat (if pyStrip iv = [] then ['1', '.', '0'] else pyStrip iv) =
        none →
      label_wrapper_config iv wd = .error ()) ∧
    (∀ iv wd,
      pyInt (if pyStrip wd = [] then ['1', '2', '0'] else pyStrip wd) =
        none →
      label_wrapper_config iv wd = .error ()) := by
  refine ⟨by simp [label_wrapper_config, pyFloat, pyInt, pyStrip, digitsVal],
    by simp [label_wrapper_config, pyFloat, pyInt, pyStrip, digitsVal], ?_, ?_⟩
  · intro iv wd h
    simp only [label_wrapper_config, h]
  · intro iv wd h
    simp only [label_wrapper_config, h]
    split <;> simp_all

/-- Witness for C8 (amended) at a concrete input: interval `"2x"` is
unparseable and aborts configuration. -/
theorem C8_config_defaults_witness :
    label_wrapper_config ['2', 'x'] ['1', '2', '0'] = .error () :=
  C8_config_defaults.2.2.1 ['2', 'x'] ['1', '2', '0'] (by decide)

/-- C10. The metrics probe is total over its outcomes: for every
underlying query result (command failure, empty output, malformed or
wrongly-arity output, numeric fields) it returns `none` — never an
exception — or a pair whose memory component is the raw kilobyte reading
divided by 1024. -/
theorem C10_get_metrics_total (raw : Option (List Char)) :
    get_metrics raw = none ∨
    ∃ out cpu_s rss_s cpu rss_kb, raw = some out ∧
      pySplit (pyStrip out) = [cpu_s, rss_s] ∧
      pyFloat cpu_s = some cpu ∧ pyInt rss_s = some rss_kb ∧
      get_metrics raw = some (cpu, (rss_kb : ℚ) / 1024) := by
  match raw with
  | none => exact Or.inl rfl
  | some out =>
    simp only [get_metrics]
    split
    · exact Or.inl rfl
    · split
      · rename_i cpu_s rss_s heq
        match hc : pyFloat cpu_s, hr : pyInt rss_s with
        | none, _ => left; simp [hc]
        | some cpu, none => left; simp [hc, hr]
        | some cpu, some rss_kb =>
          right
          exact ⟨out, cpu_s, rss_s, cpu, rss_kb, rfl, heq, hc, hr,
            by simp [hc, hr]⟩
      · exact Or.inl rfl
